import Mathlib

/-!
Shallow embedding of the erl rate limiter (github.com/ryhazerus/erl).

The embedding covers, translated from the Go sources:
  - window bucketing (window.go: `Window.Duration`, `Window.BucketKey`,
    `Window.BucketStart`),
  - glob / wildcard URL matching (matcher.go: `matchURL`, `globMatch`,
    `wildcardMatch`),
  - the counter stores: `MemoryStore` (store/memory), `SQLiteStore`
    (store/sqlite), `RedisStore` (store/redis) and `TieredStore`
    (store/tiered.go),
  - the limiter admission check (`Limiter.Check`) together with its error
    taxonomy (`LimitExceededError`, the `ErrLimitExceeded` sentinel and the
    `errors.Is` unwrap chain).

Modelling conventions:
  - Go `int64` counters and limits become `Int` (no claim involves overflow);
  - a Go map becomes a function `String → Option value`;
  - a Go `(value, error)` pair becomes `value × Option String`;
  - mutation becomes explicit state passing;
  - `time.Time` becomes a civil UTC `DateTime` record; a `time.Duration`
    becomes an `Int` count of nanoseconds, exactly as in Go;
  - the one external stdlib call, `net/url.Parse`, is a parameter
    `parse : List Char → Option (List Char × List Char)` yielding the
    `(Host, Path)` pair (`none` models a parse error); everything downstream
    of it is translated from the repository code.
-/

/-- Civil UTC date-time, modelling the field accessors of a Go `time.Time`
(`Year`, `Month`, `Day`, `Hour`, `Minute`, `Second`).  The library always
converts to UTC (`t = t.UTC()`) before reading fields, so the model carries
UTC civil fields directly; sub-second precision is not used by any claim. -/
structure DateTime where
  year : Int
  month : Int
  day : Int
  hour : Int
  minute : Int
  second : Int
deriving DecidableEq

/-- Days since the Unix epoch of a civil date (Hinnant's civil-from-days
algorithm, with `Int.tdiv` matching the truncating division it was written
for).  Used only to compare instants. -/
def daysFromCivil (y m d : Int) : Int :=
  let y2 : Int := if m ≤ 2 then y - 1 else y
  let era : Int := Int.tdiv (if 0 ≤ y2 then y2 else y2 - 399) 400
  let yoe : Int := y2 - era * 400
  let mp : Int := if 2 < m then m - 3 else m + 9
  let doy : Int := Int.tdiv (153 * mp + 2) 5 + d - 1
  let doe : Int := yoe * 365 + Int.tdiv yoe 4 - Int.tdiv yoe 100 + doy
  era * 146097 + doe - 719468

/-- Seconds since the Unix epoch of a civil UTC date-time: the instant a
`DateTime` denotes (a faithful rendering of Go `time.Time.Unix` on UTC
civil fields). -/
def toSecs (t : DateTime) : Int :=
  daysFromCivil t.year t.month t.day * 86400 + t.hour * 3600 + t.minute * 60 + t.second

/-- Zero-padded two-digit decimal, as Go's reference-layout formatting
produces for the in-range month/day/hour/minute fields ("01".."12", …). -/
def pad2 (n : Int) : String :=
  if 0 ≤ n ∧ n < 10 then "0" ++ toString n else toString n

/-- Zero-padded four-digit decimal, as Go's "2006" year layout produces for
the in-range years that `time.Time` accessors return. -/
def pad4 (n : Int) : String :=
  if 0 ≤ n ∧ n < 10 then "000" ++ toString n
  else if 0 ≤ n ∧ n < 100 then "00" ++ toString n
  else if 0 ≤ n ∧ n < 1000 then "0" ++ toString n
  else toString n

/-- erl's `Window` is `type Window int` (window.go). -/
abbrev Window := Int

/-- `PerMinute Window = iota` (window.go). -/
def PerMinute : Window := 0

/-- `PerHour` (window.go). -/
def PerHour : Window := 1

/-- `PerDay` (window.go). -/
def PerDay : Window := 2

/-- `PerMonth` (window.go). -/
def PerMonth : Window := 3

/-- `Window.Duration` (window.go): the window's duration in nanoseconds
(Go `time.Duration` units); the switch's default returns `time.Hour`. -/
def Window.Duration (w : Window) : Int :=
  if w = PerMinute then 60 * 1000000000
  else if w = PerHour then 3600 * 1000000000
  else if w = PerDay then 24 * 3600 * 1000000000
  else if w = PerMonth then 30 * 24 * 3600 * 1000000000
  else 3600 * 1000000000

/-- `Window.BucketKey` (window.go): the Go `t.Format` layouts
"2006-01-02T15:04", "2006-01-02T15", "2006-01-02", "2006-01" rendered over
the UTC civil fields; the switch's default uses the `PerHour` layout. -/
def Window.BucketKey (w : Window) (t : DateTime) : String :=
  if w = PerMinute then
    pad4 t.year ++ "-" ++ pad2 t.month ++ "-" ++ pad2 t.day ++ "T" ++ pad2 t.hour ++ ":" ++ pad2 t.minute
  else if w = PerHour then
    pad4 t.year ++ "-" ++ pad2 t.month ++ "-" ++ pad2 t.day ++ "T" ++ pad2 t.hour
  else if w = PerDay then
    pad4 t.year ++ "-" ++ pad2 t.month ++ "-" ++ pad2 t.day
  else if w = PerMonth then
    pad4 t.year ++ "-" ++ pad2 t.month
  else
    pad4 t.year ++ "-" ++ pad2 t.month ++ "-" ++ pad2 t.day ++ "T" ++ pad2 t.hour

/-- `Window.BucketStart` (window.go): `time.Date(...)` with the lower fields
zeroed per window kind; for `PerMonth` the day is 1.  The switch's default
is the `PerHour` truncation. -/
def Window.BucketStart (w : Window) (t : DateTime) : DateTime :=
  if w = PerMinute then ⟨t.year, t.month, t.day, t.hour, t.minute, 0⟩
  else if w = PerHour then ⟨t.year, t.month, t.day, t.hour, 0, 0⟩
  else if w = PerDay then ⟨t.year, t.month, t.day, 0, 0, 0⟩
  else if w = PerMonth then ⟨t.year, t.month, 1, 0, 0, 0⟩
  else ⟨t.year, t.month, t.day, t.hour, 0, 0⟩

/-- `store.Window` (store package): the resolved bucket handed to a store —
duration in nanoseconds, bucket key, bucket start. -/
structure StoreWindow where
  duration : Int
  bucketKey : String
  bucketStart : DateTime
deriving DecidableEq

/-- Pointwise map update: the effect of `m[key] = v` (or `delete`) on a Go
map modelled as a function. -/
def setKey {α : Type} (m : String → Option α) (key : String) (v : Option α) :
    String → Option α :=
  fun k2 => if k2 = key then v else m k2

/-- `bucket` (store/memory): one in-memory counter. -/
structure bucket where
  count : Int
  bucketKey : String
deriving DecidableEq

/-- `MemoryStore` (store/memory): `buckets map[string]*bucket`. -/
abbrev MemoryStore := String → Option bucket

/-- A fresh `NewMemoryStore()`: the empty map. -/
def memEmpty : MemoryStore := fun _ => none

/-- `MemoryStore.Increment` (store/memory): reset the bucket when the key is
new or its stored bucket key differs from the window's, then add one and
store the result; never errors. -/
def MemoryStore.Increment (m : MemoryStore) (key : String) (w : StoreWindow) :
    (Int × Option String) × MemoryStore :=
  let b : bucket :=
    match m key with
    | some b0 => if b0.bucketKey ≠ w.bucketKey then { count := 0, bucketKey := w.bucketKey } else b0
    | none => { count := 0, bucketKey := w.bucketKey }
  let b2 : bucket := { b with count := b.count + 1 }
  ((b2.count, none), setKey m key (some b2))

/-- `MemoryStore.Get` (store/memory): stored count when the bucket key
matches, else 0; never errors, never mutates. -/
def MemoryStore.Get (m : MemoryStore) (key : String) (w : StoreWindow) :
    (Int × Option String) × MemoryStore :=
  match m key with
  | some b0 => if b0.bucketKey ≠ w.bucketKey then ((0, none), m) else ((b0.count, none), m)
  | none => ((0, none), m)

/-- `MemoryStore.Reset` (store/memory): delete the key. -/
def MemoryStore.Reset (m : MemoryStore) (key : String) : Option String × MemoryStore :=
  (none, setKey m key none)

/-- One row of the `erl_counters` table (store/sqlite). -/
structure SqliteRow where
  count : Int
  bucket_key : String
  window_seconds : Int
deriving DecidableEq

/-- `SQLiteStore` (store/sqlite): the `erl_counters` table, keyed by `key`. -/
abbrev SQLiteStore := String → Option SqliteRow

/-- A fresh SQLite store: the empty table. -/
def sqlEmpty : SQLiteStore := fun _ => none

/-- `SQLiteStore.Increment` (store/sqlite): inside one transaction — select
the row; if absent insert count 1; if its bucket key differs reset the count
to 0; then add one and update.  `window_seconds` is
`int64(w.Duration.Seconds())`, whole seconds for every erl window.  The
model is the committed transaction (claims assume no database I/O error). -/
def SQLiteStore.Increment (s : SQLiteStore) (key : String) (w : StoreWindow) :
    (Int × Option String) × SQLiteStore :=
  match s key with
  | none =>
    ((1, none),
      setKey s key (some { count := 1, bucket_key := w.bucketKey,
                           window_seconds := Int.tdiv w.duration 1000000000 }))
  | some row =>
    let c0 : Int := if row.bucket_key ≠ w.bucketKey then 0 else row.count
    let c2 : Int := c0 + 1
    ((c2, none),
      setKey s key (some { count := c2, bucket_key := w.bucketKey,
                           window_seconds := Int.tdiv w.duration 1000000000 }))

/-- `SQLiteStore.Get` (store/sqlite): no row or a bucket-key mismatch gives
0; never mutates. -/
def SQLiteStore.Get (s : SQLiteStore) (key : String) (w : StoreWindow) :
    (Int × Option String) × SQLiteStore :=
  match s key with
  | none => ((0, none), s)
  | some row => if row.bucket_key ≠ w.bucketKey then ((0, none), s) else ((row.count, none), s)

/-- `SQLiteStore.Reset` (store/sqlite): delete the row. -/
def SQLiteStore.Reset (s : SQLiteStore) (key : String) : Option String × SQLiteStore :=
  (none, setKey s key none)

/-- One Redis hash value as used by erl (store/redis): fields `count` and
`bucket_key`.  The TTL the script sets only makes entries expire; no claim
involves expiry, so it is not part of the state. -/
structure RedisHash where
  count : Int
  bucket_key : String
deriving DecidableEq

/-- `RedisStore` (store/redis): the keyspace under the `erl:` namespace. -/
abbrev RedisStore := String → Option RedisHash

/-- A fresh Redis store: the empty keyspace. -/
def redisEmpty : RedisStore := fun _ => none

/-- `redisKey` (store/redis): the `erl:` key namespace. -/
def redisKey (key : String) : String := "erl:" ++ key

/-- `RedisStore.Increment` (store/redis): the atomic Lua script — when the
stored `bucket_key` differs (or the key is absent, so `HGET` gives nil) set
the hash to count 1 under the new bucket key and return 1, otherwise
`HINCRBY count 1`. -/
def RedisStore.Increment (s : RedisStore) (key : String) (w : StoreWindow) :
    (Int × Option String) × RedisStore :=
  match s (redisKey key) with
  | some h =>
    if h.bucket_key = w.bucketKey then
      let c : Int := h.count + 1
      ((c, none), setKey s (redisKey key) (some { count := c, bucket_key := h.bucket_key }))
    else
      ((1, none), setKey s (redisKey key) (some { count := 1, bucket_key := w.bucketKey }))
  | none =>
    ((1, none), setKey s (redisKey key) (some { count := 1, bucket_key := w.bucketKey }))

/-- `RedisStore.Get` (store/redis): `HGetAll`; an empty reply or a
bucket-key mismatch gives 0; never mutates. -/
def RedisStore.Get (s : RedisStore) (key : String) (w : StoreWindow) :
    (Int × Option String) × RedisStore :=
  match s (redisKey key) with
  | none => ((0, none), s)
  | some h => if h.bucket_key ≠ w.bucketKey then ((0, none), s) else ((h.count, none), s)

/-- `RedisStore.Reset` (store/redis): `DEL` the namespaced key. -/
def RedisStore.Reset (s : RedisStore) (key : String) : Option String × RedisStore :=
  (none, setKey s (redisKey key) none)

/-- The `store.Store` interface: a backend's operations over its state type
(`Close` releases I/O resources and has no effect on counter state, so it is
not part of the functional model). -/
structure StoreOps (σ : Type) where
  increment : σ → String → StoreWindow → (Int × Option String) × σ
  get : σ → String → StoreWindow → (Int × Option String) × σ
  reset : σ → String → Option String × σ

/-- The memory backend as a `store.Store`. -/
def memoryOps : StoreOps MemoryStore :=
  { increment := MemoryStore.Increment, get := MemoryStore.Get, reset := MemoryStore.Reset }

/-- The SQLite backend as a `store.Store`. -/
def sqliteOps : StoreOps SQLiteStore :=
  { increment := SQLiteStore.Increment, get := SQLiteStore.Get, reset := SQLiteStore.Reset }

/-- The Redis backend as a `store.Store`. -/
def redisOps : StoreOps RedisStore :=
  { increment := RedisStore.Increment, get := RedisStore.Get, reset := RedisStore.Reset }

/-- `TieredStore` (store/tiered.go): an internal memory store plus a
persistent backend held behind the `Store` interface. -/
structure TieredStore (σp : Type) where
  memory : MemoryStore
  persistent : σp

/-- `NewTieredStore` (store/tiered.go): fresh internal memory store over the
given persistent backend. -/
def newTiered {σp : Type} (p : σp) : TieredStore σp :=
  { memory := memEmpty, persistent := p }

/-- `TieredStore.Increment` (store/tiered.go): write through the persistent
backend first; on error return `(0, err)` without touching memory; otherwise
mirror the increment into memory (its return value discarded) and return the
persistent count. -/
def TieredStore.Increment {σp : Type} (P : StoreOps σp) (t : TieredStore σp)
    (key : String) (w : StoreWindow) : (Int × Option String) × TieredStore σp :=
  let p := P.increment t.persistent key w
  match p.1.2 with
  | some e => ((0, some e), { t with persistent := p.2 })
  | none =>
    let m := MemoryStore.Increment t.memory key w
    ((p.1.1, none), { memory := m.2, persistent := p.2 })

/-- `TieredStore.Get` (store/tiered.go): read memory first; a positive count
is a cache hit; on a zero count fall back to the persistent backend and, when
its count is positive, backfill `memory.buckets[key]` with that count and the
window's bucket key. -/
def TieredStore.Get {σp : Type} (P : StoreOps σp) (t : TieredStore σp)
    (key : String) (w : StoreWindow) : (Int × Option String) × TieredStore σp :=
  let m := MemoryStore.Get t.memory key w
  match m.1.2 with
  | some e => ((0, some e), t)
  | none =>
    if m.1.1 > 0 then ((m.1.1, none), t)
    else
      let p := P.get t.persistent key w
      match p.1.2 with
      | some e => ((0, some e), { t with persistent := p.2 })
      | none =>
        if p.1.1 > 0 then
          ((p.1.1, none),
            { memory := setKey t.memory key (some { count := p.1.1, bucketKey := w.bucketKey }),
              persistent := p.2 })
        else ((p.1.1, none), { t with persistent := p.2 })

/-- `TieredStore.Reset` (store/tiered.go): clear both tiers, surfacing the
persistent tier's error. -/
def TieredStore.Reset {σp : Type} (P : StoreOps σp) (t : TieredStore σp)
    (key : String) : Option String × TieredStore σp :=
  let m := MemoryStore.Reset t.memory key
  let p := P.reset t.persistent key
  (p.1, { memory := m.2, persistent := p.2 })

/-- All suffixes of a string, longest first: the sequence `str[i:]` for
`i = 0 .. len(str)` that the wildcard loop walks. -/
def suffixes : List Char → List (List Char)
  | [] => [[]]
  | c :: s => (c :: s) :: suffixes s

/-- `wildcardMatch` (matcher.go): backtracking glob matching.  A `*` skips
ahead and tries the rest of the pattern at every suffix of the remaining
string (`for i := 0; i <= len(str); i++`); a literal must match the head.
The Go function's leading `pattern == "*"` fast path coincides with the
star branch's empty-rest case. -/
def wildcardMatch : List Char → List Char → Bool
  | [], str => str.isEmpty
  | c :: rest, str =>
    if c = '*' then
      if rest = [] then true
      else (suffixes str).any fun s2 => wildcardMatch rest s2
    else
      match str with
      | [] => false
      | d :: s2 => if c = d then wildcardMatch rest s2 else false

/-- `strings.HasPrefix(s, pre)`. -/
def beginsWith (s pre : List Char) : Bool :=
  s.take pre.length = pre

/-- `strings.HasSuffix(s, suf)`. -/
def endsWith (s suf : List Char) : Bool :=
  s.reverse.take suf.length = suf.reverse

/-- `globMatch` (matcher.go): exact equality, then the trailing `/*`
prefix rule, then full wildcard matching. -/
def globMatch (pattern value : List Char) : Bool :=
  if pattern = value then true
  else if endsWith pattern ['/', '*'] then
    let pre := pattern.take (pattern.length - 2)
    if value = pre ∨ beginsWith value (pre ++ ['/']) then true
    else wildcardMatch pattern value
  else wildcardMatch pattern value

/-- `strings.TrimRight(s, "/")`: strip all trailing slashes. -/
def trimRightSlash (s : List Char) : List Char :=
  (s.reverse.dropWhile fun c => c = '/').reverse

/-- `matchURL` (matcher.go): parse the URL (a parse error fails closed to
"no match"), take host + path, strip trailing slashes from both sides, and
glob-match.  `parse` stands for `net/url.Parse` projected to
`(parsed.Host, parsed.Path)`. -/
def matchURL (parse : List Char → Option (List Char × List Char))
    (rawURL : List Char) (pattern : List Char) : Bool :=
  match parse rawURL with
  | none => false
  | some (host, path) =>
    globMatch (trimRightSlash pattern) (trimRightSlash (host ++ path))

/-- erl's `Strategy` is `type Strategy int` (strategy.go). -/
abbrev Strategy := Int

/-- `Block Strategy = iota` (strategy.go). -/
def Block : Strategy := 0

/-- `BlockWithQueue` (strategy.go). -/
def BlockWithQueue : Strategy := 1

/-- `LogOnly` (strategy.go). -/
def LogOnly : Strategy := 2

/-- `Resource` (resource.go). -/
structure Resource where
  name : String
  pattern : List Char
  limit : Int
  window : Window
  strategy : Strategy
deriving DecidableEq

/-- The Go error values the limiter produces.  `sentinelLimitExceeded` is
the package-level `ErrLimitExceeded`; `limitExceededError` is a
`*LimitExceededError` with its `Resource`, `Current` and `resetAt` fields
(`resetAt` as nanoseconds since the Unix epoch, the instant
`w.BucketStart.Add(w.Duration)` denotes); `wrapped` is an `fmt.Errorf`
with `%w`; `plain` is any other backend error. -/
inductive GoError where
  | sentinelLimitExceeded : GoError
  | limitExceededError : Resource → Int → Int → GoError
  | wrapped : String → GoError → GoError
  | plain : String → GoError
deriving DecidableEq

/-- The `Unwrap` chain: `(*LimitExceededError).Unwrap()` returns the
`ErrLimitExceeded` sentinel; an `fmt.Errorf("…: %w", err)` unwraps to
`err`; other errors do not unwrap. -/
def unwrap : GoError → Option GoError
  | GoError.limitExceededError _ _ _ => some GoError.sentinelLimitExceeded
  | GoError.wrapped _ e => some e
  | _ => none

/-- `errors.Is(err, ErrLimitExceeded)`: walk the unwrap chain looking for
the sentinel.  The `limitExceededError` case is `true` because its unwrap
is exactly the sentinel. -/
def errorsIsLE : GoError → Bool
  | GoError.sentinelLimitExceeded => true
  | GoError.limitExceededError _ _ _ => true
  | GoError.wrapped _ e => errorsIsLE e
  | GoError.plain _ => false

/-- The `store.Window` literal `Limiter.Check` builds from a resource's
window kind and the current time. -/
def mkStoreWindow (w : Window) (now : DateTime) : StoreWindow :=
  { duration := Window.Duration w,
    bucketKey := Window.BucketKey w now,
    bucketStart := Window.BucketStart w now }

/-- The instant `w.BucketStart.Add(w.Duration)` stored in a
`LimitExceededError`, as nanoseconds since the Unix epoch. -/
def resetAtNs (w : StoreWindow) : Int :=
  toSecs w.bucketStart * 1000000000 + w.duration

/-- The outcome `Limiter.Check` produces for the first matching resource,
from the store's `(count, err)` reply: a store error is wrapped and
returned; a count over the limit first fires the `onLimitReached` callback
(when one is set) and then blocks under `Block`/`BlockWithQueue`; the
`LogOnly` case and the switch's silent fallthrough for any other strategy
value both allow.  The callback invocations are returned as a list. -/
def checkOutcome (hasCb : Bool) (r : Resource) (w : StoreWindow)
    (res : Int × Option String) : Option GoError × List (Resource × Int) :=
  match res.2 with
  | some e => (some (GoError.wrapped "erl: store error" (GoError.plain e)), [])
  | none =>
    let current := res.1
    if current > r.limit then
      let cbs := if hasCb then [(r, current)] else []
      if r.strategy = Block then
        (some (GoError.limitExceededError r current (resetAtNs w)), cbs)
      else if r.strategy = BlockWithQueue then
        (some (GoError.limitExceededError r current (resetAtNs w)), cbs)
      else (none, cbs)
    else (none, [])

/-- The resource loop of `Limiter.Check`: registration order, first pattern
match wins; the first match computes the window for now, increments the
store once, and decides; no match allows. -/
def checkLoop {σ : Type} (P : StoreOps σ) (hasCb : Bool)
    (parse : List Char → Option (List Char × List Char))
    (now : DateTime) (rawURL : List Char) :
    List Resource → σ → (Option GoError × List (Resource × Int)) × σ
  | [], s => ((none, []), s)
  | r :: rest, s =>
    if matchURL parse rawURL r.pattern then
      let w := mkStoreWindow r.window now
      let step := P.increment s r.name w
      (checkOutcome hasCb r w step.1, step.2)
    else checkLoop P hasCb parse now rawURL rest s

/-- `Limiter.Check` (limiter.go): the admission check over the registered
resource list and the limiter's store state.  `hasCb` says whether an
`onLimitReached` callback was installed. -/
def Check {σ : Type} (P : StoreOps σ) (hasCb : Bool)
    (parse : List Char → Option (List Char × List Char))
    (resources : List Resource) (now : DateTime) (rawURL : List Char) (s : σ) :
    (Option GoError × List (Resource × Int)) × σ :=
  checkLoop P hasCb parse now rawURL resources s

/-- A parse result used by concrete scenarios: host "h", path "/p". -/
def parseHP : List Char → Option (List Char × List Char) :=
  fun _ => some (['h'], ['/', 'p'])

/-- The timestamp the concrete scenarios run at. -/
def d0 : DateTime := ⟨2024, 1, 15, 14, 30, 0⟩

/-- Test double used only as a witness input: a persistent backend whose
`Increment` always fails (what a broken database connection produces). -/
def failOps : StoreOps Unit :=
  { increment := fun s _ _ => ((0, some "backend down"), s),
    get := fun s _ _ => ((0, none), s),
    reset := fun s _ => (none, s) }

/-- Concrete bucket A of the stores' rollover scenario (the window the
repository's own store tests use). -/
def wA : StoreWindow := ⟨60 * 1000000000, "2024-01-15T14:30", ⟨2024, 1, 15, 14, 30, 0⟩⟩

/-- Concrete bucket B, one minute after `wA`. -/
def wB : StoreWindow := ⟨60 * 1000000000, "2024-01-15T14:31", ⟨2024, 1, 15, 14, 31, 0⟩⟩

/-- Limiter store state after `n` sequential `Check` calls for URL `url`
at times `ts 0 … ts (n-1)`, starting from a fresh default limiter (memory
store) with the single registered resource `r` and a callback installed. -/
def c1Run (parse : List Char → Option (List Char × List Char)) (url : List Char)
    (r : Resource) (ts : Nat → DateTime) : Nat → MemoryStore
  | 0 => memEmpty
  | n + 1 => (Check memoryOps true parse [r] (ts n) url (c1Run parse url r ts n)).2

/-- Outcome of the `(n+1)`-st sequential `Check` call in the `c1Run`
scenario (0-based `n`). -/
def c1Out (parse : List Char → Option (List Char × List Char)) (url : List Char)
    (r : Resource) (ts : Nat → DateTime) (n : Nat) :
    Option GoError × List (Resource × Int) :=
  (Check memoryOps true parse [r] (ts n) url (c1Run parse url r ts n)).1

/-- A fresh SQLite-backed `TieredStore` after `n` write-through increments
of `key` in window `w`. -/
def tieredIncN (key : String) (w : StoreWindow) : Nat → TieredStore SQLiteStore
  | 0 => newTiered sqlEmpty
  | n + 1 => (TieredStore.Increment sqliteOps (tieredIncN key w n) key w).2

theorem mem_suffixes_self : ∀ s : List Char, s ∈ suffixes s := by
  intro s
  cases s with
  | nil => simp [suffixes]
  | cons c s2 => simp [suffixes]

theorem nil_mem_suffixes : ∀ s : List Char, [] ∈ suffixes s := by
  intro s
  induction s with
  | nil => simp [suffixes]
  | cons c s2 ih => simp [suffixes, ih]

theorem drop_mem_suffixes : ∀ (s : List Char) (i : Nat), s.drop i ∈ suffixes s := by
  intro s
  induction s with
  | nil => intro i; simp [suffixes]
  | cons c s2 ih =>
    intro i
    cases i with
    | zero => simp [suffixes]
    | succ j => simpa [suffixes] using Or.inr (ih j)

theorem append_mem_suffixes : ∀ (u v s2 : List Char), s2 ∈ suffixes u →
    s2 ++ v ∈ suffixes (u ++ v) := by
  intro u
  induction u with
  | nil =>
    intro v s2 h
    simp [suffixes] at h
    subst h
    simpa using mem_suffixes_self v
  | cons c u2 ih =>
    intro v s2 h
    simp [suffixes] at h
    rcases h with h | h
    · subst h; simp [suffixes]
    · simpa [suffixes] using Or.inr (ih v s2 h)

theorem wildcardMatch_star (rest str : List Char)
    (h : ∃ s2 ∈ suffixes str, wildcardMatch rest s2 = true) :
    wildcardMatch ('*' :: rest) str = true := by
  rcases h with ⟨s2, hmem, hs2⟩
  by_cases hr : rest = []
  · simp [wildcardMatch, hr]
  · simp only [wildcardMatch, if_pos rfl, if_neg hr]
    exact List.any_eq_true.mpr ⟨s2, hmem, hs2⟩

theorem wildcardMatch_self : ∀ p : List Char, wildcardMatch p p = true := by
  intro p
  induction p with
  | nil => simp [wildcardMatch]
  | cons c p2 ih =>
    by_cases hc : c = '*'
    · subst hc
      by_cases hp : p2 = []
      · simp [wildcardMatch, hp]
      · refine wildcardMatch_star p2 ('*' :: p2) ⟨p2, ?_, ih⟩
        rw [show suffixes ('*' :: p2) = ('*' :: p2) :: suffixes p2 from rfl]
        exact List.mem_cons_of_mem _ (mem_suffixes_self p2)
    · simp [wildcardMatch, hc, ih]

theorem wildcardMatch_append : ∀ (A : List Char) (B u v : List Char),
    wildcardMatch A u = true → wildcardMatch B v = true →
    wildcardMatch (A ++ B) (u ++ v) = true := by
  intro A
  induction A with
  | nil =>
    intro B u v h1 h2
    simp only [wildcardMatch, List.isEmpty_iff] at h1
    subst h1
    simpa using h2
  | cons c A2 ih =>
    intro B u v h1 h2
    by_cases hc : c = '*'
    · subst hc
      by_cases hA : A2 = []
      · subst hA
        refine wildcardMatch_star B (u ++ v) ⟨v, ?_, h2⟩
        simpa using append_mem_suffixes u v [] (nil_mem_suffixes u)
      · rw [show ('*' :: A2) ++ B = '*' :: (A2 ++ B) from rfl]
        simp only [wildcardMatch, if_pos rfl, if_neg hA] at h1
        obtain ⟨u2, hmem, hu2⟩ := List.any_eq_true.mp h1
        refine wildcardMatch_star (A2 ++ B) (u ++ v) ⟨u2 ++ v, ?_, ih B u2 v hu2 h2⟩
        exact append_mem_suffixes u v u2 hmem
    · -- literal head: u must start with c
      cases u with
      | nil => simp [wildcardMatch, hc] at h1
      | cons d u2 =>
        simp only [wildcardMatch, if_neg hc] at h1
        by_cases hd : c = d
        · subst hd
          simp only [if_pos rfl] at h1
          rw [show (c :: A2) ++ B = c :: (A2 ++ B) from rfl,
              show (c :: u2) ++ v = c :: (u2 ++ v) from rfl]
          simp only [wildcardMatch, if_neg hc, if_pos rfl]
          exact ih B u2 v h1 h2
        · simp [if_neg hd] at h1

/-- C6: inside a pattern, `*` matches zero or more characters, across `/`
boundaries, by trying every split point: (1) if the rest of the pattern
matches the string after dropping any `i ≤ len` characters, the starred
pattern matches the whole string; (2) for every literal pattern piece `p`,
pattern suffix `s` and consumed text `m` (possibly empty, possibly with
slashes), `p ++ "*" ++ s` matches `p ++ m ++ s` whenever `s` matches the
remainder `s` under the same rules. -/
theorem c6_wildcard_backtracking :
    (∀ (rest str : List Char) (i : Nat), i ≤ str.length →
      wildcardMatch rest (str.drop i) = true →
      wildcardMatch ('*' :: rest) str = true) ∧
    (∀ (p s m : List Char), wildcardMatch s s = true →
      wildcardMatch (p ++ '*' :: s) (p ++ (m ++ s)) = true) := by
  constructor
  · intro rest str i _ h
    exact wildcardMatch_star rest str ⟨str.drop i, drop_mem_suffixes str i, h⟩
  · intro p s m hs
    have h2 : wildcardMatch ('*' :: s) (m ++ s) = true := by
      refine wildcardMatch_star s (m ++ s) ⟨s, ?_, hs⟩
      simpa using append_mem_suffixes m s [] (nil_mem_suffixes m)
    exact wildcardMatch_append p ('*' :: s) p (m ++ s) (wildcardMatch_self p) h2

/-- C6 witness: `ab*cd` matches `abx/ycd` — the star consumes `x/y`,
crossing a segment boundary. -/
theorem c6_wildcard_backtracking_witness :
    wildcardMatch "cd".toList "cd".toList = true ∧
    wildcardMatch ("ab".toList ++ '*' :: "cd".toList)
      ("ab".toList ++ ("x/y".toList ++ "cd".toList)) = true :=
  ⟨by decide,
   c6_wildcard_backtracking.2 "ab".toList "cd".toList "x/y".toList (by decide)⟩

theorem memGet_state (m : MemoryStore) (key : String) (w : StoreWindow) :
    (MemoryStore.Get m key w).2 = m ∧ (MemoryStore.Get m key w).1.2 = none := by
  cases h : m key with
  | none => simp [MemoryStore.Get, h]
  | some b => by_cases hb : b.bucketKey ≠ w.bucketKey <;> simp [MemoryStore.Get, h, hb]

theorem sqlGet_state (s : SQLiteStore) (key : String) (w : StoreWindow) :
    (SQLiteStore.Get s key w).2 = s ∧ (SQLiteStore.Get s key w).1.2 = none := by
  cases h : s key with
  | none => simp [SQLiteStore.Get, h]
  | some row => by_cases hb : row.bucket_key ≠ w.bucketKey <;> simp [SQLiteStore.Get, h, hb]

/-- C2: for all three backends, Increment returns 1 on a missing key or a
bucket-key mismatch and previous+1 on a match; and the concrete A,A,B
rollover returns (1, 2, 1). -/
theorem c2_increment_rollover :
    (∀ (m : MemoryStore) (key : String) (w : StoreWindow),
      (m key = none → (MemoryStore.Increment m key w).1.1 = 1) ∧
      (∀ b, m key = some b → b.bucketKey ≠ w.bucketKey →
        (MemoryStore.Increment m key w).1.1 = 1) ∧
      (∀ b, m key = some b → b.bucketKey = w.bucketKey →
        (MemoryStore.Increment m key w).1.1 = b.count + 1)) ∧
    (∀ (s : SQLiteStore) (key : String) (w : StoreWindow),
      (s key = none → (SQLiteStore.Increment s key w).1.1 = 1) ∧
      (∀ row, s key = some row → row.bucket_key ≠ w.bucketKey →
        (SQLiteStore.Increment s key w).1.1 = 1) ∧
      (∀ row, s key = some row → row.bucket_key = w.bucketKey →
        (SQLiteStore.Increment s key w).1.1 = row.count + 1)) ∧
    (∀ (s : RedisStore) (key : String) (w : StoreWindow),
      (s (redisKey key) = none → (RedisStore.Increment s key w).1.1 = 1) ∧
      (∀ hh, s (redisKey key) = some hh → hh.bucket_key ≠ w.bucketKey →
        (RedisStore.Increment s key w).1.1 = 1) ∧
      (∀ hh, s (redisKey key) = some hh → hh.bucket_key = w.bucketKey →
        (RedisStore.Increment s key w).1.1 = hh.count + 1)) ∧
    ((MemoryStore.Increment memEmpty "key" wA).1.1 = 1 ∧
      (MemoryStore.Increment (MemoryStore.Increment memEmpty "key" wA).2 "key" wA).1.1 = 2 ∧
      (MemoryStore.Increment
        (MemoryStore.Increment (MemoryStore.Increment memEmpty "key" wA).2 "key" wA).2
        "key" wB).1.1 = 1) ∧
    ((SQLiteStore.Increment sqlEmpty "key" wA).1.1 = 1 ∧
      (SQLiteStore.Increment (SQLiteStore.Increment sqlEmpty "key" wA).2 "key" wA).1.1 = 2 ∧
      (SQLiteStore.Increment
        (SQLiteStore.Increment (SQLiteStore.Increment sqlEmpty "key" wA).2 "key" wA).2
        "key" wB).1.1 = 1) ∧
    ((RedisStore.Increment redisEmpty "key" wA).1.1 = 1 ∧
      (RedisStore.Increment (RedisStore.Increment redisEmpty "key" wA).2 "key" wA).1.1 = 2 ∧
      (RedisStore.Increment
        (RedisStore.Increment (RedisStore.Increment redisEmpty "key" wA).2 "key" wA).2
        "key" wB).1.1 = 1) := by
  refine ⟨?_, ?_, ?_, by decide, by decide, by decide⟩
  · intro m key w
    refine ⟨fun h => by simp [MemoryStore.Increment, h], ?_, ?_⟩
    · intro b h hne; simp [MemoryStore.Increment, h, hne]
    · intro b h heq; simp [MemoryStore.Increment, h, heq]
  · intro s key w
    refine ⟨fun h => by simp [SQLiteStore.Increment, h], ?_, ?_⟩
    · intro row h hne; simp [SQLiteStore.Increment, h, hne]
    · intro row h heq; simp [SQLiteStore.Increment, h, heq]
  · intro s key w
    refine ⟨fun h => by simp [RedisStore.Increment, h], ?_, ?_⟩
    · intro hh h hne; simp [RedisStore.Increment, h, hne]
    · intro hh h heq; simp [RedisStore.Increment, h, heq]

/-- C2 witness: a key stored with count 2 in the matching bucket increments
to 3. -/
theorem c2_increment_rollover_witness :
    (setKey memEmpty "k" (some ⟨2, "2024-01-15T14:30"⟩)) "k" =
      some (⟨2, "2024-01-15T14:30"⟩ : bucket) ∧
    (MemoryStore.Increment (setKey memEmpty "k" (some ⟨2, "2024-01-15T14:30"⟩)) "k" wA).1.1 =
      2 + 1 :=
  ⟨by decide,
   (c2_increment_rollover.1 (setKey memEmpty "k" (some ⟨2, "2024-01-15T14:30"⟩)) "k" wA).2.2
     ⟨2, "2024-01-15T14:30"⟩ (by decide) (by decide)⟩

/-- C5 counterexample: against a tiered store whose memory tier is empty and
whose SQLite tier holds count 3 for "k" in `wA`, Get backfills the memory
tier — the stored entry for "k" in the memory tier changes, so Get is not
mutation-free on a TieredStore. -/
theorem c5_get_mutates_counterexample :
    (TieredStore.Get sqliteOps
        (newTiered (setKey sqlEmpty "k" (some ⟨3, "2024-01-15T14:30", 60⟩)))
        "k" wA).2.memory "k" ≠
      (newTiered (setKey sqlEmpty "k" (some ⟨3, "2024-01-15T14:30", 60⟩))).memory "k" := by
  decide

/-- C5 amended: Get on the memory, SQLite and Redis backends never mutates,
never errors, and returns the stored count exactly when the stored bucket
key matches the window's (else 0, including for a missing key); a
SQLite-backed TieredStore's Get leaves the durable tier unchanged and
touches the memory tier at most at the looked-up key (the backfill). -/
theorem c5_get_frame_amended :
    (∀ (m : MemoryStore) (key : String) (w : StoreWindow),
      (MemoryStore.Get m key w).2 = m ∧ (MemoryStore.Get m key w).1.2 = none ∧
      (m key = none → (MemoryStore.Get m key w).1.1 = 0) ∧
      (∀ b, m key = some b → b.bucketKey = w.bucketKey →
        (MemoryStore.Get m key w).1.1 = b.count) ∧
      (∀ b, m key = some b → b.bucketKey ≠ w.bucketKey →
        (MemoryStore.Get m key w).1.1 = 0)) ∧
    (∀ (s : SQLiteStore) (key : String) (w : StoreWindow),
      (SQLiteStore.Get s key w).2 = s ∧ (SQLiteStore.Get s key w).1.2 = none ∧
      (s key = none → (SQLiteStore.Get s key w).1.1 = 0) ∧
      (∀ row, s key = some row → row.bucket_key = w.bucketKey →
        (SQLiteStore.Get s key w).1.1 = row.count) ∧
      (∀ row, s key = some row → row.bucket_key ≠ w.bucketKey →
        (SQLiteStore.Get s key w).1.1 = 0)) ∧
    (∀ (s : RedisStore) (key : String) (w : StoreWindow),
      (RedisStore.Get s key w).2 = s ∧ (RedisStore.Get s key w).1.2 = none ∧
      (s (redisKey key) = none → (RedisStore.Get s key w).1.1 = 0) ∧
      (∀ hh, s (redisKey key) = some hh → hh.bucket_key = w.bucketKey →
        (RedisStore.Get s key w).1.1 = hh.count) ∧
      (∀ hh, s (redisKey key) = some hh → hh.bucket_key ≠ w.bucketKey →
        (RedisStore.Get s key w).1.1 = 0)) ∧
    (∀ (t : TieredStore SQLiteStore) (key : String) (w : StoreWindow),
      (TieredStore.Get sqliteOps t key w).2.persistent = t.persistent ∧
      (∀ k2, k2 ≠ key → (TieredStore.Get sqliteOps t key w).2.memory k2 = t.memory k2)) := by
  refine ⟨?_, ?_, ?_, ?_⟩
  · intro m key w
    refine ⟨(memGet_state m key w).1, (memGet_state m key w).2, ?_, ?_, ?_⟩
    · intro h; simp [MemoryStore.Get, h]
    · intro b h heq; simp [MemoryStore.Get, h, heq]
    · intro b h hne; simp [MemoryStore.Get, h, hne]
  · intro s key w
    refine ⟨(sqlGet_state s key w).1, (sqlGet_state s key w).2, ?_, ?_, ?_⟩
    · intro h; simp [SQLiteStore.Get, h]
    · intro row h heq; simp [SQLiteStore.Get, h, heq]
    · intro row h hne; simp [SQLiteStore.Get, h, hne]
  · intro s key w
    refine ⟨?_, ?_, ?_, ?_, ?_⟩
    · cases h : s (redisKey key) with
      | none => simp [RedisStore.Get, h]
      | some hh => by_cases hb : hh.bucket_key ≠ w.bucketKey <;> simp [RedisStore.Get, h, hb]
    · cases h : s (redisKey key) with
      | none => simp [RedisStore.Get, h]
      | some hh => by_cases hb : hh.bucket_key ≠ w.bucketKey <;> simp [RedisStore.Get, h, hb]
    · intro h; simp [RedisStore.Get, h]
    · intro hh h heq; simp [RedisStore.Get, h, heq]
    · intro hh h hne; simp [RedisStore.Get, h, hne]
  · intro t key w
    have hm := memGet_state t.memory key w
    have hs := sqlGet_state t.persistent key w
    constructor
    · simp only [TieredStore.Get, hm.2]
      split
      · rfl
      · simp only [sqliteOps, hs.2]
        split
        · simp [hs.1]
        · simp [hs.1]
    · intro k2 hk2
      simp only [TieredStore.Get, hm.2]
      split
      · rfl
      · simp only [sqliteOps, hs.2]
        split
        · simp [setKey, hk2]
        · rfl

/-- C5 witness: a stored SQLite row with a matching bucket key reads back
its count, with the table unchanged. -/
theorem c5_get_frame_amended_witness :
    (SQLiteStore.Get (setKey sqlEmpty "a" (some ⟨5, "2024-01-15T14:30", 60⟩)) "a" wA).2 =
      setKey sqlEmpty "a" (some ⟨5, "2024-01-15T14:30", 60⟩) ∧
    (SQLiteStore.Get (setKey sqlEmpty "a" (some ⟨5, "2024-01-15T14:30", 60⟩)) "a" wA).1.1 = 5 :=
  ⟨(c5_get_frame_amended.2.1 (setKey sqlEmpty "a" (some ⟨5, "2024-01-15T14:30", 60⟩)) "a" wA).1,
   (c5_get_frame_amended.2.1 (setKey sqlEmpty "a" (some ⟨5, "2024-01-15T14:30", 60⟩)) "a" wA).2.2.2.1
     ⟨5, "2024-01-15T14:30", 60⟩ (by decide) (by decide)⟩

/-- C10: when the persistent tier's Increment fails, the tiered Increment
returns count 0 with that error and the memory tier is left untouched. -/
theorem c10_increment_error_skips_memory (σp : Type) (P : StoreOps σp)
    (t : TieredStore σp) (key : String) (w : StoreWindow) (e : String)
    (herr : (P.increment t.persistent key w).1.2 = some e) :
    TieredStore.Increment P t key w =
      ((0, some e), { memory := t.memory, persistent := (P.increment t.persistent key w).2 }) := by
  simp only [TieredStore.Increment, herr]

/-- C10 witness: a tiered store over an always-failing backend returns
`(0, err)` and keeps its memory tier (here: still empty). -/
theorem c10_increment_error_skips_memory_witness :
    TieredStore.Increment failOps (newTiered ()) "k" wA =
      ((0, some "backend down"), newTiered ()) :=
  c10_increment_error_skips_memory Unit failOps (newTiered ()) "k" wA "backend down" rfl

/-- C8: for every timestamp, the PerMonth window's duration is exactly
30×24 hours of nanoseconds, its bucket key is the UTC calendar year-month,
and its bucket start is the first of the month at 00:00 UTC; consequently
(concretely, for January 2024) bucket start + duration is not the start of
the next calendar month. -/
theorem c8_per_month_window (t : DateTime) :
    Window.Duration PerMonth = 30 * 24 * 3600 * 1000000000 ∧
    Window.BucketKey PerMonth t = pad4 t.year ++ "-" ++ pad2 t.month ∧
    Window.BucketStart PerMonth t = ⟨t.year, t.month, 1, 0, 0, 0⟩ ∧
    toSecs (Window.BucketStart PerMonth ⟨2024, 1, 15, 10, 30, 0⟩) * 1000000000 +
        Window.Duration PerMonth ≠
      toSecs ⟨2024, 2, 1, 0, 0, 0⟩ * 1000000000 := by
  refine ⟨by decide, ?_, ?_, by decide⟩
  · simp [Window.BucketKey, PerMonth, PerMinute, PerHour, PerDay]
  · simp [Window.BucketStart, PerMonth, PerMinute, PerHour, PerDay]

theorem sqlInc_err (s : SQLiteStore) (key : String) (w : StoreWindow) :
    (SQLiteStore.Increment s key w).1.2 = none := by
  cases h : s key <;> simp [SQLiteStore.Increment, h]

theorem tieredIncN_persistent (key : String) (w : StoreWindow) :
    ∀ n, (tieredIncN key w n).persistent key =
      (if n = 0 then none
       else some ⟨(n : Int), w.bucketKey, Int.tdiv w.duration 1000000000⟩) := by
  intro n
  induction n with
  | zero => rfl
  | succ j ih =>
    rw [show tieredIncN key w (j + 1) =
          (TieredStore.Increment sqliteOps (tieredIncN key w j) key w).2 from rfl]
    simp only [TieredStore.Increment, sqliteOps, sqlInc_err]
    by_cases hj : j = 0
    · subst hj
      have h0 : (tieredIncN key w 0).persistent key = none := rfl
      simp [SQLiteStore.Increment, h0, setKey]
    · simp only [SQLiteStore.Increment, ih, if_neg hj]
      simp [setKey]

/-- C4: TieredStore.Get reads memory first and returns a positive memory
count as-is (cache hit, no state change); on a memory zero it returns the
durable tier's count and, when that is positive, backfills the memory tier
with exactly that count and the supplied bucket key; and a fresh
TieredStore over the SQLite backend that an old TieredStore wrote `n ≥ 1`
increments through returns exactly `n` from Get. -/
theorem c4_tiered_get_fallback :
    (∀ (σp : Type) (P : StoreOps σp) (t : TieredStore σp) (key : String) (w : StoreWindow),
      (MemoryStore.Get t.memory key w).1.1 > 0 →
      TieredStore.Get P t key w = (((MemoryStore.Get t.memory key w).1.1, none), t)) ∧
    (∀ (σp : Type) (P : StoreOps σp) (t : TieredStore σp) (key : String) (w : StoreWindow) (d : Int),
      (MemoryStore.Get t.memory key w).1.1 = 0 →
      (P.get t.persistent key w).1 = (d, none) →
      0 < d →
      TieredStore.Get P t key w =
        ((d, none),
          { memory := setKey t.memory key (some { count := d, bucketKey := w.bucketKey }),
            persistent := (P.get t.persistent key w).2 })) ∧
    (∀ (n : Nat) (key : String) (w : StoreWindow), 0 < n →
      (TieredStore.Get sqliteOps (newTiered (tieredIncN key w n).persistent) key w).1 =
        ((n : Int), none)) := by
  refine ⟨?_, ?_, ?_⟩
  · intro σp P t key w hpos
    have hm := memGet_state t.memory key w
    simp only [TieredStore.Get, hm.2, if_pos hpos]
  · intro σp P t key w d hzero hget hd
    have hm := memGet_state t.memory key w
    simp only [TieredStore.Get, hm.2, hzero, hget]
    norm_num [hd]
  · intro n key w hn
    have hrow : (tieredIncN key w n).persistent key =
        some ⟨(n : Int), w.bucketKey, Int.tdiv w.duration 1000000000⟩ := by
      rw [tieredIncN_persistent key w n, if_neg (Nat.pos_iff_ne_zero.mp hn)]
    have hmem : (newTiered (tieredIncN key w n).persistent).memory key = none := rfl
    have hpos : (0 : Int) < (n : Int) := by exact_mod_cast hn
    simp only [TieredStore.Get, newTiered, MemoryStore.Get, hmem]
    simp only [sqliteOps, SQLiteStore.Get, hrow]
    simp [memEmpty, hpos]

/-- C4 witness: three write-through increments, then a fresh tiered store
over the same SQLite file reads back exactly 3. -/
theorem c4_tiered_get_fallback_witness :
    (TieredStore.Get sqliteOps (newTiered (tieredIncN "key" wA 3).persistent) "key" wA).1 =
      (((3 : Nat) : Int), none) :=
  c4_tiered_get_fallback.2.2 3 "key" wA (by decide)


theorem check_single (σ : Type) (P : StoreOps σ) (hasCb : Bool) (parse : List Char → Option (List Char × List Char))
    (url : List Char) (r : Resource) (now : DateTime) (s : σ)
    (hm : matchURL parse url r.pattern = true) :
    Check P hasCb parse [r] now url s =
      (checkOutcome hasCb r (mkStoreWindow r.window now)
        (P.increment s r.name (mkStoreWindow r.window now)).1,
       (P.increment s r.name (mkStoreWindow r.window now)).2) := by
  simp [Check, checkLoop, hm]

/-- C7: a limit-exceeded error returned by Check under Block or
BlockWithQueue carries the matched resource, the current count, and the
bucket's reset instant (bucket start plus window duration), and it wraps
the ErrLimitExceeded sentinel, so errors.Is succeeds. -/
theorem c7_limit_error_contents (σ : Type) (P : StoreOps σ)
    (parse : List Char → Option (List Char × List Char)) (url : List Char)
    (r : Resource) (now : DateTime) (s : σ) (c : Int)
    (hm : matchURL parse url r.pattern = true)
    (hinc : (P.increment s r.name (mkStoreWindow r.window now)).1 = (c, none))
    (hc : c > r.limit)
    (hstrat : r.strategy = Block ∨ r.strategy = BlockWithQueue) :
    (Check P true parse [r] now url s).1.1 =
      some (GoError.limitExceededError r c (resetAtNs (mkStoreWindow r.window now))) ∧
    resetAtNs (mkStoreWindow r.window now) =
      toSecs (Window.BucketStart r.window now) * 1000000000 + Window.Duration r.window ∧
    unwrap (GoError.limitExceededError r c (resetAtNs (mkStoreWindow r.window now))) =
      some GoError.sentinelLimitExceeded ∧
    errorsIsLE (GoError.limitExceededError r c (resetAtNs (mkStoreWindow r.window now))) = true := by
  refine ⟨?_, rfl, rfl, rfl⟩
  rw [check_single σ P true parse url r now s hm]
  rcases hstrat with hs | hs <;>
    simp [checkOutcome, hinc, hc, hs, Block, BlockWithQueue]

/-- C7 witness: limit 0 under Block — the first check errors with the full
limit-exceeded payload. -/
theorem c7_limit_error_contents_witness :
    (Check memoryOps true parseHP [⟨"stripe", ['*'], 0, PerMinute, Block⟩] d0 ['u'] memEmpty).1.1 =
      some (GoError.limitExceededError ⟨"stripe", ['*'], 0, PerMinute, Block⟩ 1
        (resetAtNs (mkStoreWindow PerMinute d0))) :=
  (c7_limit_error_contents MemoryStore memoryOps parseHP ['u']
    ⟨"stripe", ['*'], 0, PerMinute, Block⟩ d0 memEmpty 1
    (by decide) (by decide) (by decide) (Or.inl rfl)).1

/-- C9: with a matching resource and a successful increment, Check errors
exactly when the count exceeds the limit and the strategy is Block or
BlockWithQueue; any other strategy value (LogOnly or an out-of-range
integer) allows the request after invoking the callback. -/
theorem c9_strategy_fallthrough (σ : Type) (P : StoreOps σ)
    (parse : List Char → Option (List Char × List Char)) (url : List Char)
    (r : Resource) (now : DateTime) (s : σ) (c : Int)
    (hm : matchURL parse url r.pattern = true)
    (hinc : (P.increment s r.name (mkStoreWindow r.window now)).1 = (c, none)) :
    ((Check P true parse [r] now url s).1.1 ≠ none ↔
      (c > r.limit ∧ (r.strategy = Block ∨ r.strategy = BlockWithQueue))) ∧
    (c > r.limit → ¬(r.strategy = Block ∨ r.strategy = BlockWithQueue) →
      (Check P true parse [r] now url s).1 = (none, [(r, c)])) := by
  rw [check_single σ P true parse url r now s hm]
  constructor
  · by_cases hc : c > r.limit
    · by_cases hb : r.strategy = Block
      · simp [checkOutcome, hinc, hc, hb]
      · by_cases hq : r.strategy = BlockWithQueue
        · simp [checkOutcome, hinc, hc, hb, hq]
        · simp [checkOutcome, hinc, hc, hb, hq]
    · simp [checkOutcome, hinc, hc]
  · intro hc hnot
    push_neg at hnot
    simp [checkOutcome, hinc, hc, hnot.1, hnot.2]

/-- C9 witness: strategy value 7 (outside the defined constants) with limit
0 — the first check exceeds the limit yet allows, and the callback fired
with count 1. -/
theorem c9_strategy_fallthrough_witness :
    (Check memoryOps true parseHP [⟨"api", ['*'], 0, PerMinute, 7⟩] d0 ['u'] memEmpty).1 =
      (none, [(⟨"api", ['*'], 0, PerMinute, 7⟩, 1)]) :=
  (c9_strategy_fallthrough MemoryStore memoryOps parseHP ['u']
    ⟨"api", ['*'], 0, PerMinute, 7⟩ d0 memEmpty 1 (by decide) (by decide)).2
    (by decide) (by decide)

theorem c1Run_name (parse : List Char → Option (List Char × List Char)) (url : List Char)
    (r : Resource) (ts : Nat → DateTime) (k : String)
    (hm : matchURL parse url r.pattern = true)
    (hk : ∀ j, Window.BucketKey r.window (ts j) = k) :
    ∀ n, c1Run parse url r ts n r.name =
      (if n = 0 then none else some ⟨(n : Int), k⟩) := by
  intro n
  induction n with
  | zero => rfl
  | succ j ih =>
    have hw : (mkStoreWindow r.window (ts j)).bucketKey = k := hk j
    rw [show c1Run parse url r ts (j + 1) =
          (Check memoryOps true parse [r] (ts j) url (c1Run parse url r ts j)).2 from rfl]
    rw [check_single MemoryStore memoryOps true parse url r (ts j) _ hm]
    simp only [memoryOps, MemoryStore.Increment, ih, hw]
    by_cases hj : j = 0
    · subst hj; simp [setKey]
    · simp [setKey, hj]

theorem c1_current (parse : List Char → Option (List Char × List Char)) (url : List Char)
    (r : Resource) (ts : Nat → DateTime) (k : String)
    (hm : matchURL parse url r.pattern = true)
    (hk : ∀ j, Window.BucketKey r.window (ts j) = k) (i : Nat) :
    (MemoryStore.Increment (c1Run parse url r ts i) r.name
        (mkStoreWindow r.window (ts i))).1 = ((i : Int) + 1, none) := by
  have hw : (mkStoreWindow r.window (ts i)).bucketKey = k := hk i
  rw [MemoryStore.Increment]
  simp only [c1Run_name parse url r ts k hm hk i, hw]
  by_cases hi : i = 0
  · subst hi; simp
  · simp [hi]

/-- C1: a single registered resource with limit L, N sequential checks in
one bucket from a fresh limiter (memory store, callback installed, no store
errors): under Block or BlockWithQueue the calls numbered ≤ L allow and
every later call returns the limit-exceeded error with the current count;
under LogOnly every call allows, with the callback invoked (with the
current count) on each call past L. -/
theorem c1_sequential_enforcement (parse : List Char → Option (List Char × List Char))
    (url : List Char) (r : Resource) (ts : Nat → DateTime) (k : String) (N i : Nat)
    (hm : matchURL parse url r.pattern = true)
    (hk : ∀ j, Window.BucketKey r.window (ts j) = k)
    (_hi : i < N) :
    (((i : Int) + 1 ≤ r.limit) → c1Out parse url r ts i = (none, [])) ∧
    (((i : Int) + 1 > r.limit) →
      ((r.strategy = Block ∨ r.strategy = BlockWithQueue) →
        c1Out parse url r ts i =
          (some (GoError.limitExceededError r ((i : Int) + 1)
            (resetAtNs (mkStoreWindow r.window (ts i)))),
           [(r, (i : Int) + 1)])) ∧
      (r.strategy = LogOnly →
        c1Out parse url r ts i = (none, [(r, (i : Int) + 1)]))) := by
  have hcur := c1_current parse url r ts k hm hk i
  rw [show c1Out parse url r ts i =
        (Check memoryOps true parse [r] (ts i) url (c1Run parse url r ts i)).1 from rfl]
  rw [check_single MemoryStore memoryOps true parse url r (ts i) _ hm]
  refine ⟨?_, ?_⟩
  · intro hle
    simp [checkOutcome, memoryOps, hcur, not_lt.mpr hle]
  · intro hgt
    constructor
    · intro hs
      rcases hs with hs | hs <;>
        simp [checkOutcome, memoryOps, hcur, hgt, hs, Block, BlockWithQueue]
    · intro hs
      simp [checkOutcome, memoryOps, hcur, hgt, hs, LogOnly, Block, BlockWithQueue]

/-- C1 witness: limit 1 under Block at a fixed timestamp — the second
sequential check (index 1) is denied with count 2 and the callback record.
-/
theorem c1_sequential_enforcement_witness :
    c1Out parseHP ['u'] ⟨"api", ['*'], 1, PerMinute, Block⟩ (fun _ => d0) 1 =
      (some (GoError.limitExceededError ⟨"api", ['*'], 1, PerMinute, Block⟩ 2
        (resetAtNs (mkStoreWindow PerMinute d0))),
       [(⟨"api", ['*'], 1, PerMinute, Block⟩, 2)]) :=
  ((c1_sequential_enforcement parseHP ['u'] ⟨"api", ['*'], 1, PerMinute, Block⟩
      (fun _ => d0) "2024-01-15T14:30" 3 1 (by decide)
      (fun j => (by decide : Window.BucketKey PerMinute d0 = "2024-01-15T14:30"))
      (by decide)).2 (by decide)).1 (Or.inl rfl)
